import Mathlib

/-!
Verification of the school-summary repository: shallow embedding of the
frontend stores and date helpers (translated from the TypeScript sources)
and of the backend services (scheduler, log manager, cache, auth session,
task status), which are modelled from the specification because the
backend implementation itself is not part of the provided sources.
-/

namespace Bakalari

/-! ## Frontend dashboard store (frontend/src/stores/dashboard.ts) -/

/-- State of the Pinia dashboard store: `data`, `loading`, `error` refs.
The payload type of the dashboard response is abstracted as `α`. -/
structure DashboardStore (α : Type) where
  data : Option α
  loading : Bool
  error : Option String
  deriving Repr, DecidableEq

/-- The message stored by the catch branch: `e.message || 'Failed to load
dashboard'` - JavaScript `||` falls back when the message is falsy (empty). -/
def errMessage (m : String) : String :=
  if m = "" then "Failed to load dashboard" else m

/-- `load(student)` from dashboard.ts, as a pure function of the previous
store state and the outcome of the `getDashboard` request: sets
`loading = true` and `error = null`, then on success assigns `data`,
on failure assigns `error`, and finally clears `loading`. -/
def DashboardStore.load (s : DashboardStore α) (result : Except String α) :
    DashboardStore α :=
  let s1 : DashboardStore α := { s with loading := true, error := none }
  match result with
  | .ok d => { s1 with data := some d, loading := false }
  | .error e => { s1 with error := some (errMessage e), loading := false }

/-! ## Frontend student store (stores/student.ts) -/

/-- State of the Pinia student store. -/
structure StudentStore where
  students : List String
  current : String
  deriving Repr, DecidableEq

/-- `loadStudents()` as a pure function of the fetched student list:
assigns `students`, then sets `current` to the first element exactly when
the list is non-empty and `current` is the empty string. -/
def StudentStore.loadStudents (s : StudentStore) (fetched : List String) :
    StudentStore :=
  let s1 : StudentStore := { s with students := fetched }
  if 0 < fetched.length ∧ s1.current = "" then
    { s1 with current := fetched.headD "" }
  else s1

/-- `selectStudent(name)` from stores/student.ts. -/
def StudentStore.selectStudent (s : StudentStore) (name : String) :
    StudentStore :=
  { s with current := name }

/-! ## Frontend week-start helper (ResourcesView, function weekStartDate)

The TypeScript code works on JavaScript Date values; the embedding
represents a date as its civil day number (days since 1970-01-01,
proleptic Gregorian calendar), which is what the Date arithmetic in the
source manipulates. -/

/-- Civil day number of year/month/day (month 1..12), days since
1970-01-01 in the proleptic Gregorian calendar; standard
days-from-civil algorithm written with floor division. -/
def daysFromCivil (y m d : Int) : Int :=
  let y1 : Int := if m ≤ 2 then y - 1 else y
  let era : Int := y1 / 400
  let yoe : Int := y1 - era * 400
  let mp : Int := if m ≤ 2 then m + 9 else m - 3
  let doy : Int := (153 * mp + 2) / 5 + d - 1
  let doe : Int := yoe * 365 + yoe / 4 - yoe / 100 + doy
  era * 146097 + doe - 719468

/-- JavaScript `Date.prototype.getDay`: 0 = Sunday .. 6 = Saturday.
Day 0 (1970-01-01) was a Thursday. -/
def dayOfWeek (n : Int) : Int := (n + 4) % 7

/-- The year adjustment performed by the JavaScript `Date(year, month,
day)` constructor: years 0 through 99 are interpreted as 1900 + year. -/
def jsYearAdjust (y : Int) : Int :=
  if 0 ≤ y ∧ y ≤ 99 then y + 1900 else y

/-- The Monday computation inlined in weekStartDate: from `getDay` it
derives the offset `-6` for Sunday and `1 - day` otherwise and adds it. -/
def mondayOfWeek (d : Int) : Int :=
  let day := dayOfWeek d
  d + (if day = 0 then -6 else 1 - day)

/-- The text before the first slash of a string, as produced by
JavaScript `s.split('/')[0]`. -/
def splitFirst (s : String) : String :=
  String.mk (s.toList.takeWhile (fun c => c != '/'))

/-- JavaScript `parseInt(s, 10)`: skip leading whitespace, read an
optional sign and then a longest digit prefix; NaN (here `none`) when no
digit follows. Integers are modelled exactly (no float rounding). -/
def jsParseInt (s : String) : Option Int :=
  let cs := s.toList.dropWhile (fun c => c.isWhitespace)
  let sign : Int := match cs with | '-' :: _ => -1 | _ => 1
  let cs2 := match cs with
    | '-' :: r => r
    | '+' :: r => r
    | _ => cs
  let ds := cs2.takeWhile (fun c => c.isDigit)
  if ds.isEmpty then none
  else some (sign * Int.ofNat (ds.foldl (fun a c => a * 10 + (c.toNat - 48)) 0))

/-- `weekStartDate(weekNumber, schoolYear)` from the resources view,
with the current instant passed explicitly as `now` (the source reads it
with `new Date()` in the fallback branch). Returns a civil day number. -/
def weekStartDate (now weekNumber : Int) (schoolYear : String) : Int :=
  match jsParseInt (splitFirst schoolYear) with
  | none => now
  | some startYear =>
    let sep1 := daysFromCivil (jsYearAdjust startYear) 9 1
    mondayOfWeek sep1 + (weekNumber - 1) * 7

/-- Reading of the claim itself, for comparison with the source: the
Monday of the week containing 1 September of the parsed year (no Date
constructor adjustment), advanced by (weekNumber - 1) * 7 days. -/
def specWeekStart (weekNumber y : Int) : Int :=
  mondayOfWeek (daysFromCivil y 9 1) + (weekNumber - 1) * 7

/-! ## Backend task status tracking

The backend Python implementation (services under backend/app) is not
part of the provided sources; only its design document and the frontend
are. The backend services below are therefore modelled from the spec. -/

/-- Modelled from the spec: the TaskStatus record of section 3.8 of the
design document (services/scheduler.py is missing from the sources);
times are instants in seconds, duration in milliseconds. -/
structure TaskStatus where
  task_name : String
  student : String
  interval_seconds : Nat
  last_run : Option Nat
  last_duration_ms : Option Nat
  last_status : String
  last_error : Option String
  next_run : Option Nat
  run_count : Nat
  error_count : Nat
  deriving Repr, DecidableEq

/-- Outcome of one execution attempt of a scheduled task. -/
inductive RunOutcome where
  | success
  | failure (msg : String)
  deriving Repr, DecidableEq

/-- Modelled from the spec: the TaskStatus update performed at the end
of every execution attempt (spec section 4.6): run_count increments on
every attempt, error_count only on failure, last_status and last_error
reflect the outcome, timing fields are set. -/
def TaskStatus.recordRun (ts : TaskStatus) (o : RunOutcome)
    (now duration : Nat) : TaskStatus :=
  match o with
  | .success =>
    { ts with
      run_count := ts.run_count + 1
      last_status := "success"
      last_run := some now
      last_duration_ms := some duration
      next_run := some (now + ts.interval_seconds) }
  | .failure m =>
    { ts with
      run_count := ts.run_count + 1
      error_count := ts.error_count + 1
      last_status := "error"
      last_error := some m
      last_run := some now
      last_duration_ms := some duration
      next_run := some (now + ts.interval_seconds) }

/-! ## Backend event log (services/log_manager.py, missing from src) -/

/-- Modelled from the spec: the closed set of log categories of section
3.7 of the design document. -/
inductive LogCategory where
  | auth | timetable | marks | komens | summary | prepare
  | gdrive | gemini | scheduler | config | system
  deriving Repr, DecidableEq

/-- Modelled from the spec: a structured log entry (section 3.7);
details are modelled as an association list. -/
structure LogEntry where
  timestamp : Nat
  category : LogCategory
  level : String
  message : String
  student : Option String
  details : Option (List (String × String))
  deriving Repr, DecidableEq

/-- Modelled from the spec: the bounded ring buffer of log entries,
oldest first; maxEntries is the fixed capacity (default 2000). -/
structure LogManager where
  maxEntries : Nat
  entries : List LogEntry
  deriving Repr, DecidableEq

/-- Modelled from the spec: append to the ring buffer - once full, the
single oldest entry is evicted (strict FIFO) and the new entry appended. -/
def LogManager.log (lm : LogManager) (e : LogEntry) : LogManager :=
  let kept :=
    if lm.maxEntries ≤ lm.entries.length then lm.entries.drop 1
    else lm.entries
  { lm with entries := kept ++ [e] }

/-- Appending a whole sequence of entries in order. -/
def LogManager.logAll (lm : LogManager) (es : List LogEntry) : LogManager :=
  es.foldl LogManager.log lm

/-- A fresh empty log manager of the given capacity. -/
def LogManager.empty (cap : Nat) : LogManager := ⟨cap, []⟩

/-- A plain numbered entry used to exercise the ring buffer. -/
def numberedEntry (i : Nat) : LogEntry :=
  ⟨i, .scheduler, "INFO", "event", none, none⟩

/-- The 2005 distinct entries inserted in the capacity test. -/
def insertedEntries : List LogEntry := (List.range 2005).map numberedEntry

/-! ## Backend TTL cache (services/cache.py, missing from src) -/

/-- Modelled from the spec: a cache entry holds the value and its
absolute expiry instant (section 3, CacheEntry). -/
structure CacheEntry (α : Type) where
  value : α
  expiry : Nat
  deriving Repr, DecidableEq

/-- Modelled from the spec: the in-memory TTL key-value store
(sections 3.5 and 4.3), keys mapped by an association list. -/
structure DataCache (α : Type) where
  store : List (String × CacheEntry α)
  deriving Repr, DecidableEq

/-- Modelled from the spec: set(key, value, ttl) at instant now stores
the value with absolute expiry now + ttl, replacing any previous entry
for the key (last writer wins). -/
def DataCache.set (c : DataCache α) (k : String) (v : α) (ttl now : Nat) :
    DataCache α :=
  ⟨(k, ⟨v, now + ttl⟩) :: c.store.filter (fun p => p.1 != k)⟩

/-- Modelled from the spec: get(key) at instant now - expiry is enforced
lazily at read time, an entry whose ttl has elapsed reads as a miss. -/
def DataCache.get (c : DataCache α) (k : String) (now : Nat) : Option α :=
  match c.store.find? (fun p => p.1 == k) with
  | some (_, e) => if now < e.expiry then some e.value else none
  | none => none

/-- Modelled from the spec: invalidate(key) removes the entry. -/
def DataCache.invalidate (c : DataCache α) (k : String) : DataCache α :=
  ⟨c.store.filter (fun p => p.1 != k)⟩

/-- Modelled from the spec: clear() empties the cache. -/
def DataCache.clear (_ : DataCache α) : DataCache α := ⟨[]⟩

/-! ## Backend trigger table and cascade (services/scheduler.py,
missing from src) -/

/-- Modelled from the spec: the refresh domains of the glossary
(timetable, grades or marks, messages or komens, summary, preparation). -/
inductive Domain where
  | timetable | marks | messages | summary | preparation
  deriving Repr, DecidableEq

/-- Modelled from the spec: the fixed trigger table of spec section 4.6
- a successful messages execution additionally schedules summary for the
same entity, a successful timetable or messages execution additionally
schedules preparation; nothing else triggers anything. -/
def triggerTable : Domain → List Domain
  | .messages => [.summary, .preparation]
  | .timetable => [.preparation]
  | _ => []

/-- One (entity, domain) execution; the triggered flag marks executions
that were themselves scheduled through the trigger table. -/
structure Exec where
  entity : String
  domain : Domain
  triggered : Bool
  deriving Repr, DecidableEq

/-- Modelled from the spec: the immediate executions additionally
scheduled when an execution finishes - only a successful execution that
was not itself triggered schedules its trigger table row, for the same
entity, marked as triggered. -/
def cascades (e : Exec) (success : Bool) : List Exec :=
  if success = true ∧ e.triggered = false then
    (triggerTable e.domain).map (fun d => ⟨e.entity, d, true⟩)
  else []

/-- All executions of one cycle started by a top level execution: the
execution itself, the executions its outcome triggers, and whatever
those triggered executions would trigger in turn. -/
def cycleExecs (e : Exec) (success : Bool) : List Exec :=
  let cs := cascades e success
  e :: (cs ++ (cs.map (fun c => cascades c true)).flatten)

/-! ## Backend execution step and scheduler (services/scheduler.py,
missing from src) -/

/-- Modelled from the spec: the ApiSession error taxonomy of spec
section 7. -/
inductive ApiError where
  | authError (msg : String)
  | transientNetworkError (msg : String)
  | malformedResponseError (msg : String)
  deriving Repr, DecidableEq

/-- The failure description recorded for an ApiSession error. -/
def ApiError.describe : ApiError → String
  | .authError m => m
  | .transientNetworkError m => m
  | .malformedResponseError m => m

/-- Modelled from the spec: a DomainSnapshot (spec section 3) - entity,
domain, parsed payload and fetch timestamp. -/
structure DomainSnapshot where
  entity : String
  domain : Domain
  payload : String
  fetchedAt : Nat
  deriving Repr, DecidableEq

/-- Write one binding of an association list, replacing the previous
binding of the key. -/
def setAssoc {β : Type} (m : List ((String × Domain) × β))
    (key : String × Domain) (v : β) : List ((String × Domain) × β) :=
  (key, v) :: m.filter (fun p => p.1 != key)

/-- Look one binding up in an association list. -/
def getAssoc {β : Type} (m : List ((String × Domain) × β))
    (key : String × Domain) : Option β :=
  (m.find? (fun p => p.1 == key)).map (fun p => p.2)

/-- The log category a domain task logs under. -/
def domainCategory : Domain → LogCategory
  | .timetable => .timetable
  | .marks => .marks
  | .messages => .komens
  | .summary => .summary
  | .preparation => .prepare

/-- The task name of a domain refresh task. -/
def taskName : Domain → String
  | .timetable => "timetable_refresh"
  | .marks => "marks_refresh"
  | .messages => "komens_refresh"
  | .summary => "summary_refresh"
  | .preparation => "prepare_refresh"

/-- Modelled from the spec: the shared mutable state an execution
touches - per (entity, domain) snapshots, the shared cache, the shared
event log and the per task statuses. -/
structure SystemState where
  snapshots : List ((String × Domain) × DomainSnapshot)
  cache : DataCache String
  eventLog : LogManager
  statuses : List ((String × Domain) × TaskStatus)
  deriving Repr, DecidableEq

/-- The TaskStatus currently tracked for an (entity, domain) task, or a
fresh zero-count status when the task runs for the first time. -/
def currentStatus (st : SystemState) (ent : String) (dom : Domain) :
    TaskStatus :=
  match getAssoc st.statuses (ent, dom) with
  | some ts => ts
  | none => ⟨taskName dom, ent, 0, none, none, "skipped", none, none, 0, 0⟩

/-- Modelled from the spec: one scheduled task execution (spec section
4.6). On success the new snapshot is written to the entity context and
the cache, an event log entry is appended and TaskStatus updated; on any
ApiSession failure the prior snapshot and the cache are left untouched,
an error event log entry is appended and TaskStatus records the failure. -/
def executeTask (st : SystemState) (ent : String) (dom : Domain)
    (result : Except ApiError String) (now dur : Nat) : SystemState :=
  let key := (ent, dom)
  let ts0 := currentStatus st ent dom
  match result with
  | .ok payload =>
    { snapshots := setAssoc st.snapshots key ⟨ent, dom, payload, now⟩
      cache := st.cache.set (ent ++ ":" ++ taskName dom) payload
        ts0.interval_seconds now
      eventLog := st.eventLog.log
        ⟨now, domainCategory dom, "INFO", "refresh succeeded", some ent, none⟩
      statuses := setAssoc st.statuses key (ts0.recordRun .success now dur) }
  | .error err =>
    { snapshots := st.snapshots
      cache := st.cache
      eventLog := st.eventLog.log
        ⟨now, domainCategory dom, "ERROR", err.describe, some ent, none⟩
      statuses := setAssoc st.statuses key
        (ts0.recordRun (.failure err.describe) now dur) }

/-- Modelled from the spec: the scheduler as seen by its events - a
running flag and the shared system state it mutates. -/
structure BackgroundScheduler where
  running : Bool
  system : SystemState
  deriving Repr, DecidableEq

/-- Modelled from the spec: stop() cancels every scheduled recurring
execution and awaits in-flight executions before returning, so once it
returns the scheduler is not running and no execution is pending. -/
def BackgroundScheduler.stop (s : BackgroundScheduler) :
    BackgroundScheduler :=
  { s with running := false }

/-- An observable scheduler event: a timer tick firing one (entity,
domain) execution with its outcome, or a stop request. -/
inductive SchedulerEvent where
  | tick (ent : String) (dom : Domain) (result : Except ApiError String)
      (now dur : Nat)
  | stopEvent
  deriving Repr

/-- Modelled from the spec: a timer tick executes its task only while
the scheduler is running; cancelled tasks never fire. -/
def schedulerStep (s : BackgroundScheduler) (ev : SchedulerEvent) :
    BackgroundScheduler :=
  match ev with
  | .tick ent dom result now dur =>
    if s.running then
      { s with system := executeTask s.system ent dom result now dur }
    else s
  | .stopEvent => s.stop

/-- Run a sequence of scheduler events in order. -/
def runEvents (s : BackgroundScheduler) (evs : List SchedulerEvent) :
    BackgroundScheduler :=
  evs.foldl schedulerStep s

/-! ## Backend auth session single-flight refresh (core/auth.py,
missing from src) -/

/-- Result of one token refresh request against the remote API. -/
inductive RefreshResult where
  | newToken (token : String)
  | authFailed (msg : String)
  deriving Repr, DecidableEq

/-- Modelled from the spec: the per entity AuthSession during a refresh
window (spec sections 4.1 and 9) - the refresh-in-flight marker, the
callers awaiting the shared refresh outcome, the number of refresh
requests issued to the remote API, and the results delivered to
callers. -/
structure AuthSession where
  refreshInFlight : Bool
  waiters : List Nat
  refreshCalls : Nat
  delivered : List (Nat × RefreshResult)
  deriving Repr, DecidableEq

/-- Modelled from the spec: acquire() by one caller while a refresh is
needed - the first caller finds no refresh in flight, marks one and
issues the single refresh request; every caller joins the waiters of the
shared result (shared future, spec section 9). -/
def AuthSession.acquire (s : AuthSession) (caller : Nat) : AuthSession :=
  if s.refreshInFlight then { s with waiters := s.waiters ++ [caller] }
  else
    { s with
      refreshInFlight := true
      refreshCalls := s.refreshCalls + 1
      waiters := s.waiters ++ [caller] }

/-- Modelled from the spec: completion of the in-flight refresh - its
outcome (new token or AuthError) is delivered to every waiter, then the
waiters and the in-flight marker are cleared. -/
def AuthSession.completeRefresh (s : AuthSession) (r : RefreshResult) :
    AuthSession :=
  { s with
    delivered := s.delivered ++ s.waiters.map (fun c => (c, r))
    waiters := []
    refreshInFlight := false }

/-- An idle session with a refresh due: nothing in flight, nobody
waiting, no refresh issued yet. -/
def AuthSession.idle : AuthSession := ⟨false, [], 0, []⟩

/-- All callers of one concurrent burst invoke acquire, in arrival
order. -/
def AuthSession.acquireAll (s : AuthSession) (callers : List Nat) :
    AuthSession :=
  callers.foldl AuthSession.acquire s

end Bakalari

namespace Bakalari

/-- C8: on a failed getDashboard request the dashboard store keeps its
previous data, sets a non-null error and clears loading; on success data
equals the fetched response, error is null and loading is cleared. -/
theorem dashboard_load_error_handling :
    ∀ (α : Type) (s : DashboardStore α) (e : String) (d : α),
      ((s.load (.error e)).data = s.data
        ∧ (s.load (.error e)).error ≠ none
        ∧ (s.load (.error e)).loading = false)
      ∧ ((s.load (.ok d)).data = some d
        ∧ (s.load (.ok d)).error = none
        ∧ (s.load (.ok d)).loading = false) := by
  intro α s e d
  refine ⟨⟨rfl, ?_, rfl⟩, rfl, rfl, rfl⟩
  simp [DashboardStore.load]

/-- C9: loadStudents assigns current only when current was empty and the
fetched list is non-empty (then current becomes the first element),
otherwise current is untouched; selectStudent replaces current. -/
theorem student_store_selection :
    ∀ (s : StudentStore) (fetched : List String) (name : String),
      ((s.loadStudents fetched).current =
        if s.current = "" ∧ 0 < fetched.length then fetched.headD ""
        else s.current)
      ∧ (s.loadStudents fetched).students = fetched
      ∧ (s.selectStudent name).current = name := by
  intro s fetched name
  refine ⟨?_, ?_, rfl⟩
  · unfold StudentStore.loadStudents
    by_cases h1 : s.current = "" <;> by_cases h2 : 0 < fetched.length <;>
      simp [h1, h2]
  · unfold StudentStore.loadStudents
    by_cases h : 0 < fetched.length ∧ s.current = "" <;> simp [h]

/-- C10 counterexample: for the school year string with parsed year 50
the source result is the Monday of the week of 1 September 1950 (the
Date constructor maps years 0..99 to 1900 + year), not of the year 50
that the claim names. -/
theorem weekStartDate_year_quirk :
    weekStartDate 0 1 "50/51" ≠ specWeekStart 1 50 := by decide

/-- C10 (amended): when the text before the first slash parses as an
integer year, weekStartDate returns the Monday of the week containing 1
September of the Date-constructor-adjusted year (1900 + y for 0 <= y <=
99, y otherwise) advanced by (weekNumber - 1) * 7 days, the result is
always a Monday, and the Monday of the week of a day d lies within the 6
days up to d; when the year does not parse, the current instant is
returned. -/
theorem weekStartDate_spec :
    ∀ (now weekNumber : Int) (schoolYear : String),
      (∀ y : Int, jsParseInt (splitFirst schoolYear) = some y →
        weekStartDate now weekNumber schoolYear
            = specWeekStart weekNumber (jsYearAdjust y)
          ∧ dayOfWeek (weekStartDate now weekNumber schoolYear) = 1)
      ∧ (jsParseInt (splitFirst schoolYear) = none →
          weekStartDate now weekNumber schoolYear = now)
      ∧ (∀ d : Int,
          dayOfWeek (mondayOfWeek d) = 1
            ∧ d - 6 ≤ mondayOfWeek d ∧ mondayOfWeek d ≤ d) := by
  intro now wn s
  refine ⟨?_, ?_, ?_⟩
  · intro y hy
    constructor
    · simp only [weekStartDate, hy, specWeekStart]
    · simp only [weekStartDate, hy, specWeekStart, mondayOfWeek, dayOfWeek]
      have h7 : (0:Int) < 7 := by norm_num
      generalize daysFromCivil (jsYearAdjust y) 9 1 = d
      split <;> omega
  · intro h
    simp only [weekStartDate, h]
  · intro d
    simp only [mondayOfWeek, dayOfWeek]
    split <;> omega

/-- C10 witness: a concrete school year where the parse succeeds. -/
theorem weekStartDate_spec_witness :
    weekStartDate 0 3 "2025/2026" = specWeekStart 3 (jsYearAdjust 2025)
      ∧ dayOfWeek (weekStartDate 0 3 "2025/2026") = 1 :=
  (weekStartDate_spec 0 3 "2025/2026").1 2025 (by decide)

/-- Dropping from a dropped prefix is dropping from the whole list. -/
theorem drop_drop_append {α : Type} (L es : List α) (i j : Nat)
    (h : i ≤ L.length) :
    ((L.drop i) ++ es).drop j = (L ++ es).drop (i + j) := by
  rw [List.drop_append_eq_append_drop, List.drop_append_eq_append_drop,
      List.drop_drop, List.length_drop]
  have h2 : j - (L.length - i) = i + j - L.length := by omega
  rw [h2]

/-- One append keeps the suffix of the grown list that fits capacity. -/
theorem LogManager.log_entries (lm : LogManager) (e : LogEntry)
    (h1 : lm.entries.length ≤ lm.maxEntries) (h2 : 1 ≤ lm.maxEntries) :
    (lm.log e).entries
      = (lm.entries ++ [e]).drop (lm.entries.length + 1 - lm.maxEntries) := by
  unfold LogManager.log
  by_cases hc : lm.maxEntries ≤ lm.entries.length
  · have hlen : lm.entries.length = lm.maxEntries := le_antisymm h1 hc
    simp only [hc, if_true]
    have h3 : lm.entries.length + 1 - lm.maxEntries = 1 := by omega
    rw [h3, List.drop_append_eq_append_drop]
    have h0 : 1 - lm.entries.length = 0 := by omega
    simp [h0]
  · simp only [hc, if_false]
    have h3 : lm.entries.length + 1 - lm.maxEntries = 0 := by omega
    simp [h3]

/-- One append preserves the capacity bound. -/
theorem LogManager.log_length (lm : LogManager) (e : LogEntry)
    (h1 : lm.entries.length ≤ lm.maxEntries) (h2 : 1 ≤ lm.maxEntries) :
    (lm.log e).entries.length ≤ lm.maxEntries := by
  unfold LogManager.log
  by_cases hc : lm.maxEntries ≤ lm.entries.length <;>
    simp only [hc, if_true, if_false] <;> simp <;> omega

/-- Appending a sequence keeps exactly the suffix of the combined list
that fits capacity, so the bound holds after any sequence of appends. -/
theorem LogManager.logAll_entries (es : List LogEntry) :
    ∀ (lm : LogManager), lm.entries.length ≤ lm.maxEntries →
      1 ≤ lm.maxEntries →
      (lm.logAll es).entries
        = (lm.entries ++ es).drop
            (lm.entries.length + es.length - lm.maxEntries)
      ∧ (lm.logAll es).entries.length ≤ lm.maxEntries
      ∧ (lm.logAll es).maxEntries = lm.maxEntries := by
  induction es with
  | nil =>
    intro lm h1 h2
    have h3 : lm.entries.length + 0 - lm.maxEntries = 0 := by omega
    simp [LogManager.logAll, h3, h1]
  | cons e es ih =>
    intro lm h1 h2
    have hstep : (lm.logAll (e :: es)) = ((lm.log e).logAll es) := rfl
    have hmax : (lm.log e).maxEntries = lm.maxEntries := rfl
    have hlen : (lm.log e).entries.length ≤ (lm.log e).maxEntries := by
      rw [hmax]; exact lm.log_length e h1 h2
    obtain ⟨ihe, ihl, ihm⟩ := ih (lm.log e) hlen (by rw [hmax]; exact h2)
    rw [hstep]
    refine ⟨?_, by rw [hmax] at ihl; exact ihl, by rw [ihm, hmax]⟩
    rw [ihe, LogManager.log_entries lm e h1 h2, hmax]
    rw [drop_drop_append _ _ _ _ (by simp)]
    rw [List.append_assoc, List.singleton_append]
    congr 1
    rw [List.length_drop, List.length_append]
    simp only [List.length_cons, List.length_nil]
    omega

/-- C2: the event log never exceeds its capacity of 2000 entries; a full
buffer evicts exactly the single oldest entry per append and a buffer
with room appends without eviction; inserting 2005 entries into an empty
capacity-2000 buffer leaves exactly 2000 entries, precisely the inserted
sequence with its oldest 5 entries gone. -/
theorem eventlog_fifo_bound :
    (∀ es : List LogEntry,
      ((LogManager.empty 2000).logAll es).entries.length ≤ 2000)
    ∧ ((LogManager.empty 2000).logAll insertedEntries).entries
        = insertedEntries.drop 5
    ∧ ((LogManager.empty 2000).logAll insertedEntries).entries.length = 2000
    ∧ (∀ (lm : LogManager) (e : LogEntry),
        (lm.maxEntries ≤ lm.entries.length →
          (lm.log e).entries = lm.entries.drop 1 ++ [e])
        ∧ (lm.entries.length < lm.maxEntries →
          (lm.log e).entries = lm.entries ++ [e])) := by
  have hbase : ∀ es : List LogEntry,
      ((LogManager.empty 2000).logAll es).entries
        = es.drop (es.length - 2000) := by
    intro es
    have h := (LogManager.logAll_entries es (LogManager.empty 2000)
      (by simp [LogManager.empty]) (by simp [LogManager.empty])).1
    simpa [LogManager.empty] using h
  have hcount : insertedEntries.length = 2005 := by
    simp [insertedEntries]
  refine ⟨?_, ?_, ?_, ?_⟩
  · intro es
    rw [hbase es, List.length_drop]
    omega
  · rw [hbase insertedEntries, hcount]
  · rw [hbase insertedEntries, List.length_drop, hcount]
  · intro lm e
    constructor
    · intro h
      unfold LogManager.log
      simp [h]
    · intro h
      unfold LogManager.log
      have h2 : ¬ lm.maxEntries ≤ lm.entries.length := by omega
      simp [h2]

/-- C2 witness: one append on a full capacity-1 buffer evicts the single
oldest entry, and one append on an empty buffer evicts nothing. -/
theorem eventlog_fifo_bound_witness :
    ((⟨1, [numberedEntry 0]⟩ : LogManager).log (numberedEntry 1)).entries
        = [numberedEntry 0].drop 1 ++ [numberedEntry 1]
    ∧ ((⟨1, []⟩ : LogManager).log (numberedEntry 0)).entries
        = [] ++ [numberedEntry 0] :=
  ⟨(eventlog_fifo_bound.2.2.2 ⟨1, [numberedEntry 0]⟩ (numberedEntry 1)).1
      (by decide),
   (eventlog_fifo_bound.2.2.2 ⟨1, []⟩ (numberedEntry 0)).2 (by decide)⟩

/-- C3: run_count increments by exactly one per execution attempt
regardless of outcome (hence is monotonically non-decreasing),
error_count increments only on failed attempts, and in a three-run
scenario whose second run fails the final counters are run_count 3 and
error_count 1 with last_status error exactly after the second run and
success after the first and third. -/
theorem task_status_counters :
    (∀ (ts : TaskStatus) (o : RunOutcome) (now dur : Nat),
      (ts.recordRun o now dur).run_count = ts.run_count + 1
      ∧ ts.run_count ≤ (ts.recordRun o now dur).run_count)
    ∧ (∀ (ts : TaskStatus) (now dur : Nat) (m : String),
      (ts.recordRun .success now dur).error_count = ts.error_count
      ∧ (ts.recordRun (.failure m) now dur).error_count = ts.error_count + 1
      ∧ (ts.recordRun .success now dur).last_status = "success"
      ∧ (ts.recordRun (.failure m) now dur).last_status = "error")
    ∧ (∀ (ts : TaskStatus) (t1 d1 t2 d2 t3 d3 : Nat) (m : String),
      ts.run_count = 0 → ts.error_count = 0 →
      (((ts.recordRun .success t1 d1).recordRun (.failure m) t2 d2).recordRun
          .success t3 d3).run_count = 3
      ∧ (((ts.recordRun .success t1 d1).recordRun (.failure m) t2 d2).recordRun
          .success t3 d3).error_count = 1
      ∧ (ts.recordRun .success t1 d1).last_status = "success"
      ∧ ((ts.recordRun .success t1 d1).recordRun (.failure m) t2 d2).last_status
          = "error"
      ∧ (((ts.recordRun .success t1 d1).recordRun (.failure m) t2 d2).recordRun
          .success t3 d3).last_status = "success") := by
  refine ⟨?_, ?_, ?_⟩
  · intro ts o now dur
    cases o <;> simp [TaskStatus.recordRun]
  · intro ts now dur m
    simp [TaskStatus.recordRun]
  · intro ts t1 d1 t2 d2 t3 d3 m h1 h2
    simp [TaskStatus.recordRun, h1, h2]

/-- C3 witness: the three-run scenario on a freshly created status. -/
theorem task_status_counters_witness :
    ((((⟨"komens_refresh", "A", 900, none, none, "skipped", none, none, 0, 0⟩ :
        TaskStatus).recordRun .success 10 5).recordRun
          (.failure "net") 910 5).recordRun .success 1810 5).run_count = 3
    ∧ ((((⟨"komens_refresh", "A", 900, none, none, "skipped", none, none,
        0, 0⟩ : TaskStatus).recordRun .success 10 5).recordRun
          (.failure "net") 910 5).recordRun .success 1810 5).error_count = 1 := by
  have h := task_status_counters.2.2
    ⟨"komens_refresh", "A", 900, none, none, "skipped", none, none, 0, 0⟩
    10 5 910 5 1810 5 "net" rfl rfl
  exact ⟨h.1, h.2.1⟩

/-- Membership in the filtered store of a key rules out finding it. -/
theorem DataCache.find_filter_ne {α : Type} (store : List (String × CacheEntry α))
    (k : String) :
    (store.filter (fun p => p.1 != k)).find? (fun p => p.1 == k) = none := by
  apply List.find?_eq_none.mpr
  intro x hx
  have h := (List.mem_filter.mp hx).2
  simpa using h

/-- C4: a read before the ttl elapses returns the stored value, a read
at or after expiry is a miss, a removed key reads as a miss, and an
expired entry is indistinguishable at read time from an absent one. -/
theorem cache_ttl_read :
    ∀ (α : Type) (c : DataCache α) (k : String) (v : α) (ttl t t2 : Nat),
      (t2 < t + ttl → (c.set k v ttl t).get k t2 = some v)
      ∧ (t + ttl ≤ t2 → (c.set k v ttl t).get k t2 = none)
      ∧ ((c.invalidate k).get k t2 = none)
      ∧ (t + ttl ≤ t2 →
          (c.set k v ttl t).get k t2
            = ((c.set k v ttl t).invalidate k).get k t2) := by
  intro α c k v ttl t t2
  have hhit : ((c.set k v ttl t).store.find? (fun p => p.1 == k))
      = some (k, ⟨v, t + ttl⟩) := by
    simp [DataCache.set]
  have habs : ∀ d : DataCache α, (d.invalidate k).get k t2 = none := by
    intro d
    unfold DataCache.get DataCache.invalidate
    rw [DataCache.find_filter_ne]
  have hmiss : t + ttl ≤ t2 → (c.set k v ttl t).get k t2 = none := by
    intro h
    have h2 : ¬ t2 < t + ttl := by omega
    simp [DataCache.get, hhit, h2]
  refine ⟨?_, hmiss, habs c, ?_⟩
  · intro h
    simp [DataCache.get, hhit, h]
  · intro h
    rw [hmiss h, habs (c.set k v ttl t)]

/-- C4 witness: a concrete set followed by a fresh read and an expired
read. -/
theorem cache_ttl_read_witness :
    ((⟨[]⟩ : DataCache Nat).set "marks" 7 60 0).get "marks" 59 = some 7
    ∧ ((⟨[]⟩ : DataCache Nat).set "marks" 7 60 0).get "marks" 60 = none :=
  ⟨(cache_ttl_read Nat ⟨[]⟩ "marks" 7 60 0 59).1 (by decide),
   (cache_ttl_read Nat ⟨[]⟩ "marks" 7 60 0 60).2.1 (by decide)⟩

/-- C1: a successful messages execution schedules exactly one immediate
summary execution for the same entity and exactly one preparation
execution, a successful timetable execution schedules exactly one
preparation execution, executions that were themselves triggered never
trigger anything, failed executions trigger nothing, and a full cycle
started by a successful messages execution consists of exactly the
top-level execution plus its two one-hop cascades. -/
theorem trigger_cascade_depth_one :
    (∀ ent : String,
      (cascades ⟨ent, .messages, false⟩ true).countP
          (fun c => c.domain == Domain.summary && c.entity == ent) = 1
      ∧ (cascades ⟨ent, .messages, false⟩ true).countP
          (fun c => c.domain == Domain.preparation && c.entity == ent) = 1
      ∧ (cascades ⟨ent, .timetable, false⟩ true).countP
          (fun c => c.domain == Domain.preparation && c.entity == ent) = 1)
    ∧ (∀ (ent : String) (dom : Domain) (b : Bool),
        cascades ⟨ent, dom, true⟩ b = [])
    ∧ (∀ e : Exec, cascades e false = [])
    ∧ (∀ ent : String,
        cycleExecs ⟨ent, .messages, false⟩ true
          = [⟨ent, .messages, false⟩, ⟨ent, .summary, true⟩,
             ⟨ent, .preparation, true⟩]) := by
  refine ⟨?_, ?_, ?_, ?_⟩
  · intro ent
    refine ⟨?_, ?_, ?_⟩ <;>
      simp [cascades, triggerTable, List.countP_cons, List.countP_nil]
  · intro ent dom b
    simp [cascades]
  · intro e
    simp [cascades]
  · intro ent
    simp [cycleExecs, cascades, triggerTable]

/-- Writing a binding and reading the same key back yields the written
value. -/
theorem getAssoc_setAssoc {β : Type} (m : List ((String × Domain) × β))
    (k : String × Domain) (v : β) :
    getAssoc (setAssoc m k v) k = some v := by
  simp [getAssoc, setAssoc]

/-- C6: a task execution that fails with any ApiSession error leaves
every stored snapshot (in particular the one of its own entity and
domain) and the cache unchanged, appends exactly one error entry to the
event log, and updates the TaskStatus of the task with the recorded
failure. -/
theorem failed_execution_frame :
    ∀ (st : SystemState) (ent : String) (dom : Domain) (err : ApiError)
      (now dur : Nat),
      (executeTask st ent dom (.error err) now dur).snapshots = st.snapshots
      ∧ getAssoc (executeTask st ent dom (.error err) now dur).snapshots
          (ent, dom) = getAssoc st.snapshots (ent, dom)
      ∧ (executeTask st ent dom (.error err) now dur).cache = st.cache
      ∧ (executeTask st ent dom (.error err) now dur).eventLog
          = st.eventLog.log
              ⟨now, domainCategory dom, "ERROR", err.describe, some ent, none⟩
      ∧ getAssoc (executeTask st ent dom (.error err) now dur).statuses
          (ent, dom)
          = some ((currentStatus st ent dom).recordRun
              (.failure err.describe) now dur) := by
  intro st ent dom err now dur
  refine ⟨rfl, rfl, rfl, rfl, ?_⟩
  show getAssoc (setAssoc st.statuses (ent, dom)
      ((currentStatus st ent dom).recordRun (.failure err.describe) now dur))
      (ent, dom) = _
  rw [getAssoc_setAssoc]

/-- A scheduler that is not running ignores every further event. -/
theorem runEvents_stopped (evs : List SchedulerEvent) :
    ∀ s : BackgroundScheduler, s.running = false → runEvents s evs = s := by
  induction evs with
  | nil => intro s h; rfl
  | cons ev evs ih =>
    intro s h
    have hstep : schedulerStep s ev = s := by
      cases ev with
      | tick ent dom result now dur => simp [schedulerStep, h]
      | stopEvent =>
        cases s with
        | mk running system =>
          simp only [schedulerStep, BackgroundScheduler.stop]
          simp_all
    simp only [runEvents, List.foldl_cons]
    rw [hstep]
    exact ih s h

/-- C7: after stop() returns, no sequence of further timer events
changes any TaskStatus (or anything else in the system state), and the
scheduler stays stopped. -/
theorem stop_halts_status_updates :
    ∀ (s : BackgroundScheduler) (evs : List SchedulerEvent),
      (runEvents s.stop evs).system.statuses = s.system.statuses
      ∧ (runEvents s.stop evs).system = s.system
      ∧ (runEvents s.stop evs).running = false := by
  intro s evs
  rw [runEvents_stopped evs s.stop rfl]
  exact ⟨rfl, rfl, rfl⟩

/-- While a refresh is in flight, further acquire calls only join the
waiters: no second refresh request is issued. -/
theorem acquireAll_inflight (cs : List Nat) :
    ∀ s : AuthSession, s.refreshInFlight = true →
      s.acquireAll cs = { s with waiters := s.waiters ++ cs } := by
  induction cs with
  | nil =>
    intro s h
    cases s
    simp [AuthSession.acquireAll]
  | cons c cs ih =>
    intro s h
    have hs : s.acquire c = { s with waiters := s.waiters ++ [c] } := by
      simp [AuthSession.acquire, h]
    have hstep : s.acquireAll (c :: cs)
        = ({ s with waiters := s.waiters ++ [c] } : AuthSession).acquireAll cs := by
      simp only [AuthSession.acquireAll, List.foldl_cons, hs]
    rw [hstep, ih { s with waiters := s.waiters ++ [c] } h]
    simp

/-- C5: when any non-empty burst of concurrent callers invokes acquire
while a refresh is needed, exactly one refresh request is issued against
the remote API and the single refresh outcome is delivered to every
caller of the burst, in order, leaving no waiter behind. -/
theorem auth_single_flight :
    ∀ (callers : List Nat) (r : RefreshResult),
      callers ≠ [] →
      ((AuthSession.idle.acquireAll callers).completeRefresh r).refreshCalls = 1
      ∧ ((AuthSession.idle.acquireAll callers).completeRefresh r).delivered
          = callers.map (fun c => (c, r))
      ∧ ((AuthSession.idle.acquireAll callers).completeRefresh r).waiters = []
      ∧ ((AuthSession.idle.acquireAll callers).completeRefresh r).refreshInFlight
          = false := by
  intro callers r h
  match callers with
  | c :: cs =>
    have h1 : AuthSession.idle.acquire c
        = (⟨true, [c], 1, []⟩ : AuthSession) := rfl
    have h2 : AuthSession.idle.acquireAll (c :: cs)
        = (⟨true, [c], 1, []⟩ : AuthSession).acquireAll cs := by
      simp only [AuthSession.acquireAll, List.foldl_cons, h1]
    rw [h2, acquireAll_inflight cs ⟨true, [c], 1, []⟩ rfl]
    simp [AuthSession.completeRefresh]

/-- C5 witness: three concurrent callers, one refresh, all three served. -/
theorem auth_single_flight_witness :
    ((AuthSession.idle.acquireAll [0, 1, 2]).completeRefresh
        (.newToken "t")).refreshCalls = 1
    ∧ ((AuthSession.idle.acquireAll [0, 1, 2]).completeRefresh
        (.newToken "t")).delivered
        = [0, 1, 2].map (fun c => (c, RefreshResult.newToken "t")) := by
  have h := auth_single_flight [0, 1, 2] (.newToken "t") (by decide)
  exact ⟨h.1, h.2.1⟩

end Bakalari
